import Mathlib

set_option maxRecDepth 10000

/-!
Verification development for the stargzget repository.

The definitions below are shallow embeddings of the Go sources:
integers are modelled as Lean Int (Go int64; wraparound is modelled
explicitly where it can occur), byte buffers as List Nat, Go maps as
association lists where a prepended entry shadows older ones (lookup
takes the first match, which is Go's last-write-wins update order),
and fallible functions return Except String.
-/

namespace Stargz

/-- TOCEntry mirrors estargzutil.TOCEntry (estargzutil/footer.go). -/
structure TOCEntry where
  name : String
  type : String
  size : Int
  offset : Int
  chunkOffset : Int
  chunkSize : Int
  innerOffset : Int
deriving DecidableEq, Repr

/-- JTOC mirrors estargzutil.JTOC. -/
structure JTOC where
  version : Int
  entries : List TOCEntry
deriving DecidableEq, Repr

/-- Chunk mirrors estargzutil.Chunk (estargzutil/chunk.go). -/
structure Chunk where
  offset : Int
  size : Int
  compressedOffset : Int
  innerOffset : Int
deriving DecidableEq, Repr

/-- The collection loop of ChunksForFile (chunk.go lines 25-57): scans the
entries for the requested name; a reg entry records the file size and a
chunk whose size defaults to the entry size when chunkSize is 0 and the
size is nonzero; a chunk entry appends a chunk whose size defaults to
size - chunkOffset when chunkSize is 0 and the running size is nonzero.
Both entry kinds set the found flag. The accumulator mirrors the Go
locals (size, found, chunks). -/
def collect (fileName : String) : List TOCEntry → Int → Bool → List Chunk →
    Int × Bool × List Chunk
  | [], size, found, acc => (size, found, acc)
  | e :: rest, size, found, acc =>
    if e.name ≠ fileName then
      collect fileName rest size found acc
    else if e.type = "reg" then
      collect fileName rest e.size true
        (acc ++ [⟨e.chunkOffset,
          if e.chunkSize = 0 ∧ e.size ≠ 0 then e.size else e.chunkSize,
          e.offset, e.innerOffset⟩])
    else if e.type = "chunk" then
      collect fileName rest size true
        (acc ++ [⟨e.chunkOffset,
          if e.chunkSize = 0 ∧ size ≠ 0 then size - e.chunkOffset else e.chunkSize,
          e.offset, e.innerOffset⟩])
    else
      collect fileName rest size found acc

/-- Comparator of the sort.Slice call in ChunksForFile (chunk.go lines 63-68):
ascending (offset, innerOffset). -/
def chunkLT (a b : Chunk) : Bool :=
  a.offset < b.offset || (a.offset == b.offset && a.innerOffset < b.innerOffset)

/-- Insertion into a list sorted by chunkLT, placed after elements it does not
strictly precede. sort.Slice is an unspecified sort consistent with the
comparator; insertion sort realizes one such order. -/
def insertChunk (c : Chunk) : List Chunk → List Chunk
  | [] => [c]
  | d :: rest => if chunkLT c d then c :: d :: rest else d :: insertChunk c rest

/-- The sort step of ChunksForFile. -/
def sortChunks (l : List Chunk) : List Chunk :=
  l.foldl (fun acc c => insertChunk c acc) []

/-- The fill-in loop of ChunksForFile (chunk.go lines 70-85): a chunk whose
size is still 0 gets nextOffset - offset where nextOffset is the next
chunk's offset (the final size for the last chunk); non-positive results
fall back to size - offset and negative results clamp to 0. -/
def fillSizes (size : Int) : List Chunk → List Chunk
  | [] => []
  | c :: rest =>
    (if c.size = 0 then
      let nextOffset := match rest with
        | [] => size
        | n :: _ => n.offset
      let cs := nextOffset - c.offset
      let cs := if cs ≤ 0 then size - c.offset else cs
      let cs := if cs < 0 then 0 else cs
      { c with size := cs }
    else c) :: fillSizes size rest

/-- ChunksForFile (estargzutil/chunk.go lines 17-88). -/
def ChunksForFile (toc : JTOC) (fileName : String) : Except String (Int × List Chunk) :=
  match collect fileName toc.entries 0 false [] with
  | (size, found, chunks) =>
    if !found then .error ("file not found: " ++ fileName)
    else .ok (size, fillSizes size (sortChunks chunks))

/-- A TOC whose only entry for name f is a chunk record (no reg). -/
def chunkOnlyTOC : JTOC :=
  ⟨1, [⟨"f", "chunk", 0, 5, 0, 3, 0⟩]⟩

/-- A TOC with a reg entry of size 100 followed by a zero-sized chunk entry
at logical offset 50 and a further chunk entry at logical offset 80. -/
def midChunkTOC : JTOC :=
  ⟨1, [⟨"f", "reg", 100, 10, 0, 50, 0⟩,
       ⟨"f", "chunk", 0, 20, 50, 0, 0⟩,
       ⟨"f", "chunk", 0, 30, 80, 20, 0⟩]⟩

/-- Default chunk used with List.getD in index-wise statements. -/
def dChunk : Chunk := ⟨0, 0, 0, 0⟩

/-- Structural character-list prefix test. -/
def hasPrefixL : List Char → List Char → Bool
  | _, [] => true
  | [], _ :: _ => false
  | a :: s, b :: t => a == b && hasPrefixL s t

/-- strings.HasPrefix on the character lists of the strings (for the ASCII
patterns and paths of this code byte-wise and character-wise prefixing
agree). -/
def goHasPrefix (s pre : String) : Bool := hasPrefixL s.toList pre.toList

/-- strings.HasSuffix via reversed character lists. -/
def goHasSuffix (s suf : String) : Bool :=
  hasPrefixL s.toList.reverse suf.toList.reverse

/-- pathMatcher mirrors the struct in image_index_loader.go; dirMode models
the Go field that records a trailing slash on the original pattern. -/
structure PathMatcher where
  matchAll : Bool
  pattern : String
  dirMode : Bool
deriving DecidableEq, Repr

/-- newPathMatcher (image_index_loader.go lines 163-177). -/
def newPathMatcher (pat : String) : PathMatcher :=
  if pat = "." ∨ pat = "/" ∨ pat = "" then ⟨true, "", false⟩
  else
    let dm := goHasSuffix pat "/"
    let p2 := if goHasPrefix pat "/" then pat else "/" ++ pat
    ⟨false, p2, dm⟩

/-- pathMatcher.matches (image_index_loader.go lines 179-193). -/
def pmMatches (m : PathMatcher) (path : String) : Bool :=
  if m.matchAll then true
  else
    let p := if goHasPrefix path "/" then path else "/" ++ path
    if m.dirMode then goHasPrefix p m.pattern
    else p == m.pattern || goHasPrefix p (m.pattern ++ "/")

/-- BlobDescriptor mirrors storage.BlobDescriptor; the digest is kept as a
string. -/
structure BlobDescriptor where
  digest : String
  size : Int
deriving DecidableEq, Repr

/-- FileInfo mirrors the struct in image_index_loader.go. -/
structure FileInfo where
  path : String
  blobDigest : String
  size : Int
deriving DecidableEq, Repr

/-- LayerInfo mirrors the struct in image_index_loader.go; FileSizes is an
association list in which a prepended pair shadows older pairs (Go map
updates in entry order). -/
structure LayerInfo where
  blobDigest : String
  files : List String
  fileSizes : List (String × Int)
deriving DecidableEq, Repr

/-- ImageIndex mirrors the struct in image_index_loader.go; files is the
global overlay mapping with the same prepend-shadows representation. -/
structure ImageIndex where
  layers : List LayerInfo
  files : List (String × FileInfo)
deriving DecidableEq, Repr

/-- The per-layer entry loop of imageIndexLoader.Load (lines 58-70): every
reg entry is appended to the layer file list, written into the layer size
map, and written into the global files map. -/
def buildLayer (d : String) : List TOCEntry → List String → List (String × Int) →
    List (String × FileInfo) →
    List String × List (String × Int) × List (String × FileInfo)
  | [], fs, sizes, g => (fs, sizes, g)
  | e :: rest, fs, sizes, g =>
    if e.type = "reg" then
      buildLayer d rest (fs ++ [e.name]) ((e.name, e.size) :: sizes)
        ((e.name, ⟨e.name, d, e.size⟩) :: g)
    else buildLayer d rest fs sizes g

/-- One iteration of the blob loop of Load (lines 45-73): a failing TOC is
skipped, a loaded TOC contributes a layer and its global-file writes.
The resolver is abstracted as a function from digest to TOC result. -/
def loadStep (tocs : String → Except String JTOC) (idx : ImageIndex)
    (b : BlobDescriptor) : ImageIndex :=
  match tocs b.digest with
  | .error _ => idx
  | .ok toc =>
    match buildLayer b.digest toc.entries [] [] idx.files with
    | (fs, sizes, g) => ⟨idx.layers ++ [⟨b.digest, fs, sizes⟩], g⟩

/-- imageIndexLoader.Load (lines 30-76) with validateBlobDescriptors
(lines 195-200) inlined: an empty blob list is an error, otherwise the
blobs are folded in manifest order. -/
def loadIndex (blobs : List BlobDescriptor)
    (tocs : String → Except String JTOC) : Except String ImageIndex :=
  if blobs.isEmpty then .error "no blobs found in storage"
  else .ok (blobs.foldl (loadStep tocs) ⟨[], []⟩)

/-- Go map lookup over the prepend-shadows association list: the first
match is the most recent write. -/
def lookupFiles (fs : List (String × FileInfo)) (p : String) : Option FileInfo :=
  match fs.find? (fun kv => kv.1 == p) with
  | none => none
  | some kv => some kv.2

/-- The layer loop of ImageIndex.FindFile (lines 112-124): the first layer
with the requested digest answers; a missing path there is FILE_NOT_FOUND
and a missing digest is BLOB_NOT_FOUND. -/
def findInLayers (p : String) (bd : String) : List LayerInfo → Except String FileInfo
  | [] => .error "BLOB_NOT_FOUND"
  | l :: rest =>
    if l.blobDigest = bd then
      match l.fileSizes.find? (fun kv => kv.1 == p) with
      | some kv => .ok ⟨p, bd, kv.2⟩
      | none => .error "FILE_NOT_FOUND"
    else findInLayers p bd rest

/-- ImageIndex.FindFile (lines 103-125). -/
def FindFile (idx : ImageIndex) (p : String) (bd : String) : Except String FileInfo :=
  if bd = "" then
    match lookupFiles idx.files p with
    | none => .error "FILE_NOT_FOUND"
    | some info => .ok info
  else findInLayers p bd idx.layers

/-- Left-biased choice on options, used by the specification-side overlay
description. -/
def optOr {α : Type} : Option α → Option α → Option α
  | some a, _ => some a
  | none, b => b

/-- Specification-side description of a single layer's contribution: the
last reg entry for the path wins within the layer. -/
def lastRegInEntries (d : String) : List TOCEntry → String → Option FileInfo
  | [], _ => none
  | e :: rest, p =>
    optOr (lastRegInEntries d rest p)
      (if e.type = "reg" ∧ e.name = p then some ⟨p, d, e.size⟩ else none)

/-- Specification-side description of the overlay: the last successfully
loaded layer containing the path wins across layers. -/
def lastOwner : List BlobDescriptor → (String → Except String JTOC) → String →
    Option FileInfo
  | [], _, _ => none
  | b :: rest, tocs, p =>
    optOr (lastOwner rest tocs p)
      (match tocs b.digest with
       | .ok toc => lastRegInEntries b.digest toc.entries p
       | .error _ => none)

/-- Two-layer scenario: both layers carry a reg entry for the same path. -/
def c7blobs : List BlobDescriptor := [⟨"sha256:d1", 10⟩, ⟨"sha256:d2", 20⟩]

/-- TOC oracle for the two-layer scenario. -/
def c7tocs (d : String) : Except String JTOC :=
  if d = "sha256:d1" then .ok ⟨1, [⟨"etc/hostname", "reg", 1, 0, 0, 0, 0⟩]⟩
  else if d = "sha256:d2" then .ok ⟨1, [⟨"etc/hostname", "reg", 2, 0, 0, 0, 0⟩]⟩
  else .error "unknown blob"

/-- The index the loader builds for the two-layer scenario. -/
def c7idx : ImageIndex :=
  ⟨[⟨"sha256:d1", ["etc/hostname"], [("etc/hostname", 1)]⟩,
    ⟨"sha256:d2", ["etc/hostname"], [("etc/hostname", 2)]⟩],
   [("etc/hostname", ⟨"etc/hostname", "sha256:d2", 2⟩),
    ("etc/hostname", ⟨"etc/hostname", "sha256:d1", 1⟩)]⟩

/-- DownloadStats mirrors the struct in downloader.go. -/
structure DownloadStats where
  totalFiles : Nat
  totalBytes : Int
  downloadedFiles : Nat
  downloadedBytes : Int
  failedFiles : Nat
  retries : Nat
deriving DecidableEq, Repr

/-- DownloadOptions mirrors the struct in downloader.go (Go ints). -/
structure DownloadOptions where
  maxRetries : Int
  concurrency : Int
deriving DecidableEq, Repr

/-- A download job together with an oracle giving the outcome of each
attempt of downloadSingleFile for this job (true means the attempt
succeeds); the oracle abstracts the filesystem and network effects. -/
structure DLJob where
  size : Int
  succeeds : Nat → Bool

/-- The retry loop of a StartDownload worker (downloader.go lines 336-357):
attempts run from the start index while fuel remains, every attempt with a
positive index counts one retry before running, and a successful attempt
stops the loop. Returns the retries consumed and whether the job
downloaded. -/
def attemptsFrom (succ : Nat → Bool) : Nat → Nat → Nat → Nat × Bool
  | _, 0, retries => (retries, false)
  | start, fuel + 1, retries =>
    let r := if 0 < start then retries + 1 else retries
    if succ start then (r, true) else attemptsFrom succ (start + 1) fuel r

/-- Per-job bookkeeping of the worker loop (downloader.go lines 329-365). -/
def processJob (mR : Nat) (stats : DownloadStats) (j : DLJob) : DownloadStats :=
  match attemptsFrom j.succeeds 0 (mR + 1) 0 with
  | (r, downloaded) =>
    let stats1 : DownloadStats := { stats with retries := stats.retries + r }
    if downloaded then
      { stats1 with downloadedFiles := stats1.downloadedFiles + 1,
                    downloadedBytes := stats1.downloadedBytes + j.size }
    else { stats1 with failedFiles := stats1.failedFiles + 1 }

/-- Option defaulting of StartDownload (downloader.go lines 276-291): nil
options become MaxRetries 3, and a non-positive MaxRetries becomes 3. -/
def effMaxRetries (opts : Option DownloadOptions) : Nat :=
  match opts with
  | none => 3
  | some o => if o.maxRetries ≤ 0 then 3 else o.maxRetries.toNat

/-- StartDownload (downloader.go lines 270-384). Workers take jobs from a
channel and each stats update is a single increment under one shared
mutex, so the final stats equal the sequential fold over the jobs in
order, which is what this model computes. -/
def StartDownload (jobs : List DLJob) (opts : Option DownloadOptions) : DownloadStats :=
  if jobs.isEmpty then ⟨0, 0, 0, 0, 0, 0⟩
  else
    let mR := effMaxRetries opts
    let total := jobs.foldl (fun s j => s + j.size) 0
    jobs.foldl (processJob mR) ⟨jobs.length, total, 0, 0, 0, 0⟩

/-- Retries a single job contributes. -/
def jobRetries (mR : Nat) (j : DLJob) : Nat :=
  (attemptsFrom j.succeeds 0 (mR + 1) 0).1

/-- Whether a single job eventually downloads. -/
def jobOk (mR : Nat) (j : DLJob) : Bool :=
  (attemptsFrom j.succeeds 0 (mR + 1) 0).2

/-- Authorization header content. -/
inductive AuthHeader where
  | bearer (token : String)
  | basic (user pass : String)
deriving DecidableEq, Repr

/-- An outgoing HTTP request, reduced to the fields the auth logic sets. -/
structure HRequest where
  url : String
  auth : Option AuthHeader
deriving DecidableEq, Repr

/-- OCI descriptor (storage_registry.go). -/
structure Descriptor where
  mediaType : String
  digest : String
  size : Int
deriving DecidableEq, Repr

/-- Manifest layer (storage_registry.go). -/
structure GoLayer where
  mediaType : String
  digest : String
  size : Int
deriving DecidableEq, Repr

/-- Manifest (storage_registry.go): the manifests list is non-empty exactly
for OCI indexes. -/
structure Manifest where
  schemaVersion : Int
  mediaType : String
  layers : List GoLayer
  manifests : List Descriptor
deriving DecidableEq, Repr

/-- RemoteRegistryStorage auth state (storage_registry.go lines 18-23). -/
structure RegistryClient where
  username : String
  password : String
  authToken : String
deriving DecidableEq, Repr

/-- applyAuth (storage_registry.go lines 263-270): a cached token wins,
otherwise configured credentials are attached as Basic auth, otherwise the
request goes out untouched. -/
def applyAuth (c : RegistryClient) (req : HRequest) : HRequest :=
  if c.authToken ≠ "" then { req with auth := some (.bearer c.authToken) }
  else if c.username ≠ "" ∧ c.password ≠ "" then
    { req with auth := some (.basic c.username c.password) }
  else req

/-- Registry responses, reduced to the cases fetchManifest distinguishes. -/
inductive HResponse where
  | okManifest (m : Manifest)
  | unauthorized (wwwAuth : String)
  | failStatus (code : Int)
deriving DecidableEq, Repr

/-- Manifest fetch outcomes; authErr corresponds to the authError value the
code detects with isAuthError. -/
inductive FetchErr where
  | authErr (wwwAuth : String)
  | status (code : Int)
deriving DecidableEq, Repr

/-- fetchManifest (storage_registry.go lines 135-170), returning also the
request it sent; the registry is abstracted as a function from request to
response. -/
def fetchManifest (c : RegistryClient) (server : HRequest → HResponse)
    (url : String) : HRequest × Except FetchErr Manifest :=
  let req := applyAuth c { url := url, auth := none }
  (req, match server req with
    | .okManifest m => .ok m
    | .unauthorized w => .error (.authErr w)
    | .failStatus code => .error (.status code))

/-- authenticate (storage_registry.go lines 173-199); getBearerToken (realm
parsing plus the token request) is abstracted as the tokenFor oracle. On
Bearer the token is cached on the client; Basic requires credentials and
leaves the state unchanged; other schemes are unsupported. -/
def authenticate (c : RegistryClient) (tokenFor : String → Except String String)
    (w : String) : Except String RegistryClient :=
  if w = "" then .error "no WWW-Authenticate header in 401 response"
  else if goHasPrefix w "Bearer " then
    match tokenFor w with
    | .error e => .error e
    | .ok t => .ok { c with authToken := t }
  else if goHasPrefix w "Basic " then
    if c.username = "" ∨ c.password = "" then
      .error "registry requires basic auth but no credentials provided"
    else .ok c
  else .error "unsupported auth scheme"

/-- Manifest URL construction (storage_registry.go line 93). -/
def manifestURL (scheme registry repository ref : String) : String :=
  scheme ++ "://" ++ registry ++ "/v2/" ++ repository ++ "/manifests/" ++ ref

/-- GetManifest (storage_registry.go lines 84-132) from the point after the
image reference is parsed, returning the trace of requests sent. An
anonymous success returns the manifest immediately; only after an
authenticated retry is a non-empty manifests list followed by digest. -/
def GetManifest (c : RegistryClient) (server : HRequest → HResponse)
    (tokenFor : String → Except String String)
    (scheme registry repository tag : String) :
    List HRequest × Except String Manifest :=
  let url := manifestURL scheme registry repository tag
  match fetchManifest c server url with
  | (r1, .ok m) => ([r1], .ok m)
  | (r1, .error (.status _)) => ([r1], .error "manifest fetch failed")
  | (r1, .error (.authErr w)) =>
    match authenticate c tokenFor w with
    | .error _ => ([r1], .error "manifest fetch failed")
    | .ok c1 =>
      match fetchManifest c1 server url with
      | (r2, .error _) => ([r1, r2], .error "manifest fetch failed")
      | (r2, .ok m) =>
        match m.manifests with
        | [] => ([r1, r2], .ok m)
        | d :: _ =>
          match fetchManifest c1 server
              (manifestURL scheme registry repository d.digest) with
          | (r3, .error _) => ([r1, r2, r3], .error "manifest fetch failed")
          | (r3, .ok m2) => ([r1, r2, r3], .ok m2)

/-- A client configured with credentials and no cached token. -/
def c3client : RegistryClient := ⟨"u", "p", ""⟩

/-- A single-platform manifest. -/
def plainManifest : Manifest :=
  ⟨2, "application/vnd.oci.image.manifest.v1+json", [⟨"lt", "sha256:aaa", 1⟩], []⟩

/-- A registry that accepts every request. -/
def c3server : HRequest → HResponse := fun _ => .okManifest plainManifest

/-- A token oracle that never succeeds (not consulted in these runs). -/
def noToken : String → Except String String := fun _ => .error "no token endpoint"

/-- A client with no credentials and no cached token. -/
def c4client : RegistryClient := ⟨"", "", ""⟩

/-- An OCI index: manifests non-empty, layers empty. -/
def indexManifest : Manifest :=
  ⟨2, "application/vnd.oci.image.index.v1+json", [],
   [⟨"application/vnd.oci.image.manifest.v1+json", "sha256:plat1", 100⟩]⟩

/-- The single-platform manifest behind the index's first descriptor. -/
def platManifest : Manifest :=
  ⟨2, "application/vnd.oci.image.manifest.v1+json", [⟨"lt", "sha256:bbb", 7⟩], []⟩

/-- A registry that answers the index to every request, without demanding
authentication. -/
def c4serverAnon : HRequest → HResponse := fun _ => .okManifest indexManifest

/-- A registry that demands Bearer auth, then answers the index at the tag
URL and the platform manifest at the digest URL. -/
def c4serverAuth : HRequest → HResponse := fun req =>
  match req.auth with
  | none => .unauthorized "Bearer realm=\"https://auth.example.com/token\",service=\"registry\""
  | some _ =>
    if req.url = manifestURL "https" "registry.example.com" "library/app" "sha256:plat1"
    then .okManifest platManifest
    else .okManifest indexManifest

/-- A token oracle that hands out the token T. -/
def tokenT : String → Except String String := fun _ => .ok "T"

/-- Hex digit value per parseHex (footer.go lines 138-154). -/
def hexVal (c : Nat) : Except String Nat :=
  if 48 ≤ c ∧ c ≤ 57 then .ok (c - 48)
  else if 97 ≤ c ∧ c ≤ 102 then .ok (c - 97 + 10)
  else if 65 ≤ c ∧ c ≤ 70 then .ok (c - 65 + 10)
  else .error "invalid hex digit"

/-- Accumulator loop of parseHex: each digit shifts the int64 left one
nibble; the value is kept modulo 2 to the 64th as the Go shift discards
overflowing bits. -/
def parseHexAcc : List Nat → Nat → Except String Nat
  | [], acc => .ok acc
  | c :: rest, acc =>
    match hexVal c with
    | .error e => .error e
    | .ok d => parseHexAcc rest ((acc * 16 + d) % 18446744073709551616)

/-- parseHex (footer.go lines 138-154): the accumulated 64 bits read back
as a signed int64. -/
def parseHex (b : List Nat) : Except String Int :=
  match parseHexAcc b 0 with
  | .error e => .error e
  | .ok v =>
    .ok (if v < 9223372036854775808 then (v : Int)
         else (v : Int) - 18446744073709551616)

/-- Skip a zero-terminated field of a gzip header (name or comment). -/
def skipZeroTerminated : List Nat → Except String (List Nat)
  | [] => .error "gzip: unexpected EOF"
  | 0 :: rest => .ok rest
  | _ :: rest => skipZeroTerminated rest

/-- The gzip member header parse gzip.NewReader performs before parseFooter
reads the Extra field: magic and method bytes are checked, the extra field
is extracted when its flag is set, and the optional name, comment and
header-CRC fields are length-checked (the CRC value itself is not
verified in this model). -/
def gzipHeaderExtra (p : List Nat) : Except String (List Nat) :=
  match p with
  | b0 :: b1 :: b2 :: flg :: _t1 :: _t2 :: _t3 :: _t4 :: _xfl :: _os :: rest =>
    if b0 ≠ 31 ∨ b1 ≠ 139 ∨ b2 ≠ 8 then .error "gzip: invalid header"
    else
      match (if flg &&& 4 ≠ 0 then
          match rest with
          | x0 :: x1 :: rest2 =>
            let xlen := x0 + 256 * x1
            if rest2.length < xlen then .error "gzip: unexpected EOF"
            else .ok (rest2.take xlen, rest2.drop xlen)
          | _ => .error "gzip: unexpected EOF"
        else (.ok ([], rest) : Except String (List Nat × List Nat))) with
      | .error e => .error e
      | .ok (extra, rem1) =>
        match (if flg &&& 8 ≠ 0 then skipZeroTerminated rem1 else .ok rem1) with
        | .error e => .error e
        | .ok rem2 =>
          match (if flg &&& 16 ≠ 0 then skipZeroTerminated rem2 else .ok rem2) with
          | .error e => .error e
          | .ok rem3 =>
            if flg &&& 2 ≠ 0 ∧ rem3.length < 2 then .error "gzip: unexpected EOF"
            else .ok extra
  | _ => .error "gzip: invalid header"

/-- parseFooter (footer.go lines 100-136): legacy expects a 22-byte extra
of 16 hex digits plus the STARGZ marker; modern expects an SG header, a
little-endian length 22 and the same payload. -/
def parseFooter (p : List Nat) (legacy : Bool) : Except String Int :=
  match gzipHeaderExtra p with
  | .error e => .error e
  | .ok extra =>
    if legacy then
      if extra.length ≠ 22 then .error "legacy footer has invalid extra field"
      else if extra.drop 16 ≠ [83, 84, 65, 82, 71, 90] then
        .error "legacy footer missing STARGZ marker"
      else parseHex (extra.take 16)
    else
      if extra.length < 4 then .error "footer extra field truncated"
      else if extra.headD 0 ≠ 83 ∨ (extra.drop 1).headD 0 ≠ 71 then
        .error "footer missing SG header"
      else
        let len := (extra.drop 2).headD 0 + 256 * ((extra.drop 3).headD 0)
        if len ≠ 22 then .error "unexpected footer extra length"
        else if extra.length < 4 + len then .error "footer extra shorter than length"
        else
          let payload := (extra.drop 4).take len
          if payload.drop 16 ≠ [83, 84, 65, 82, 71, 90] then
            .error "footer missing STARGZ marker"
          else parseHex (payload.take 16)

/-- io.SectionReader.ReadAt as OpenFooter uses it: a negative offset or an
offset at or past the end yields EOF, and fewer than the requested bytes
remaining yields EOF after a short read; OpenFooter treats either as a
failed footer read. -/
def readAtFull (data : List Nat) (off : Int) (n : Nat) : Except String (List Nat) :=
  if off < 0 ∨ (data.length : Int) ≤ off then .error "EOF"
  else if data.length - off.toNat < n then .error "EOF"
  else .ok ((data.drop off.toNat).take n)

/-- OpenFooter (estargzutil/footer.go lines 41-61), reading the blob through
a section reader over its full length. -/
def OpenFooter (blob : List Nat) : Except String (Int × Int) :=
  let size : Int := blob.length
  if size < 51 ∧ size < 47 then .error "blob size is smaller than the footer size"
  else
    match readAtFull blob (size - 51) 51 with
    | .error _ => .error "failed to read footer"
    | .ok footerBuf =>
      match parseFooter footerBuf false with
      | .ok t => .ok (t, 51)
      | .error _ =>
        match parseFooter (footerBuf.drop 4) true with
        | .ok t => .ok (t, 47)
        | .error _ => .error "failed to parse stargz footer"

/-- Modelled from the spec: ParseFooter, the byte-buffer footer decoder the
resolver calls (estargzutil.ParseFooter is referenced from
chunk_resolver.go but its definition is not among the sources). Per the
spec the decoder tries the modern 51-byte layout on the buffer first,
then the legacy 47-byte layout against the tail of the buffer, returning
the TOC offset and the footer size (51 or 47); both failing is an invalid
footer. -/
def ParseFooterBytes (p : List Nat) : Except String (Int × Int) :=
  match parseFooter p false with
  | .ok t => .ok (t, 51)
  | .error _ =>
    match parseFooter (p.drop (p.length - 47)) true with
    | .ok t => .ok (t, 47)
    | .error _ => .error "failed to parse stargz footer"

/-- MockStorage.ReadBlob (storage/storage_mock.go lines 45-64): the range
is clamped to the blob end; remote HTTP range requests behave the same
for in-bounds starts. -/
def readBlobClamped (data : List Nat) (offset length : Int) :
    Except String (List Nat) :=
  if offset < 0 ∨ (data.length : Int) < offset then .error "invalid offset"
  else
    let endI : Int := if 0 < length ∧ offset + length < (data.length : Int)
                      then offset + length else (data.length : Int)
    .ok ((data.take endI.toNat).drop offset.toNat)

/-- The final decode step of loadTOC: a decoder failure becomes the TOC
download error (chunk_resolver.go lines 149-152). -/
def tocResult (decode : List Nat → Except String JTOC) (bytes : List Nat) :
    Except String JTOC :=
  match decode bytes with
  | .error _ => .error "TOC download failed"
  | .ok toc => .ok toc

/-- chunkResolver.loadTOC (chunk_resolver.go lines 95-159) for one call,
returning the trace of (offset, length) ReadBlob requests beside the
result; TOC decoding (gzip, tar and JSON) is abstracted as the decode
parameter applied to the bytes the storage returned. -/
def loadTOC (blob : List Nat) (decode : List Nat → Except String JTOC) :
    List (Int × Int) × Except String JTOC :=
  let size : Int := blob.length
  let footerLength : Int := if size < 51 then size else 51
  let req1 := (size - footerLength, footerLength)
  match readBlobClamped blob (size - footerLength) footerLength with
  | .error _ => ([req1], .error "TOC download failed")
  | .ok footerBytes =>
    match ParseFooterBytes footerBytes with
    | .error _ => ([req1], .error "TOC download failed")
    | .ok (tocOffset, footerSize) =>
      let tocLength := size - tocOffset
      if tocLength ≤ 0 then ([req1], .error "invalid TOC length")
      else
        let req2 := (tocOffset, tocLength + footerSize)
        match readBlobClamped blob tocOffset (tocLength + footerSize) with
        | .error _ => ([req1, req2], .error "TOC download failed")
        | .ok tocBytes => ([req1, req2], tocResult decode tocBytes)

/-- The bytes the footer read of loadTOC obtains: the last min(51, length)
bytes of the blob. -/
def footerSlice (blob : List Nat) : List Nat :=
  blob.drop (blob.length - 51)

/-- ASCII hex digits of 0000000000000100 (offset 256). -/
def hexOffset256 : List Nat :=
  [48, 48, 48, 48, 48, 48, 48, 48, 48, 48, 48, 48, 48, 49, 48, 48]

/-- ASCII hex digits of 0000000000000040 (offset 64). -/
def hexOffset64 : List Nat :=
  [48, 48, 48, 48, 48, 48, 48, 48, 48, 48, 48, 48, 48, 48, 52, 48]

/-- A valid modern 51-byte footer encoding TOC offset 256: gzip header with
the extra flag, extra-length 26, extra field SG + length 22 + hex digits +
STARGZ, and 13 bytes of body and trailer the header parse never reads. -/
def modernFooter : List Nat :=
  [31, 139, 8, 4, 0, 0, 0, 0, 0, 255, 26, 0, 83, 71, 22, 0] ++
    hexOffset256 ++ [83, 84, 65, 82, 71, 90] ++ List.replicate 13 0

/-- A 300-byte blob whose last 51 bytes are the modern footer; its TOC
section starts at offset 256. -/
def blob300 : List Nat := List.replicate 249 0 ++ modernFooter

/-- A 47-byte blob that is exactly a valid legacy footer encoding TOC
offset 64: gzip header with the extra flag, extra-length 22, extra field
of 16 hex digits + STARGZ, and 13 bytes of body and trailer. -/
def legacyBlob47 : List Nat :=
  [31, 139, 8, 4, 0, 0, 0, 0, 0, 255, 22, 0] ++
    hexOffset64 ++ [83, 84, 65, 82, 71, 90] ++ List.replicate 13 0

/-- A TOC decoder stand-in that always fails; the request trace does not
depend on it. -/
def dummyDecode : List Nat → Except String JTOC := fun _ => .error "not decoded"

end Stargz

namespace Stargz

theorem collect_found (fileName : String) :
    ∀ (es : List TOCEntry) (size : Int) (found : Bool) (acc : List Chunk),
      (collect fileName es size found acc).2.1 =
        (found || es.any (fun e =>
          e.name == fileName && (e.type == "reg" || e.type == "chunk"))) := by
  intro es
  induction es with
  | nil => intro size found acc; simp [collect]
  | cons e rest ih =>
    intro size found acc
    by_cases hn : e.name = fileName
    · by_cases hr : e.type = "reg"
      · simp [collect, hn, hr, ih]
      · by_cases hc : e.type = "chunk"
        · simp [collect, hn, hr, hc, ih]
        · have h1 : (e.type == "reg") = false := beq_eq_false_iff_ne.mpr hr
          have h2 : (e.type == "chunk") = false := beq_eq_false_iff_ne.mpr hc
          simp [collect, hn, hr, hc, ih, h1, h2]
    · have h1 : (e.name == fileName) = false := beq_eq_false_iff_ne.mpr hn
      simp [collect, hn, ih, h1]

/-- C1 counterexample: a TOC whose entries for the name "f" consist of a
single chunk record and no reg record. ChunksForFile succeeds (with size 0)
instead of failing with FileNotFound, because the collection loop sets the
found flag for chunk entries as well. -/
theorem c1_chunk_only_succeeds_counterexample :
    ChunksForFile chunkOnlyTOC "f" = .ok (0, [⟨0, 3, 5, 0⟩]) ∧
    chunkOnlyTOC.entries.any (fun e => e.type == "reg") = false :=
  ⟨rfl, rfl⟩

/-- C1 amended: chunk-plan derivation fails (with the file-not-found error)
exactly when the TOC holds no reg record and no chunk record for the name;
a chunk-only sequence is found and succeeds rather than being treated as
FileNotFound. -/
theorem c1_not_found_iff_no_reg_or_chunk (toc : JTOC) (fileName : String) :
    (match ChunksForFile toc fileName with
      | .ok _ => true
      | .error _ => false) =
    toc.entries.any (fun e =>
      e.name == fileName && (e.type == "reg" || e.type == "chunk")) := by
  unfold ChunksForFile
  rw [show (collect fileName toc.entries 0 false []) =
      ((collect fileName toc.entries 0 false []).1,
       (collect fileName toc.entries 0 false []).2.1,
       (collect fileName toc.entries 0 false []).2.2) from rfl]
  rw [collect_found]
  by_cases h : toc.entries.any (fun e =>
      e.name == fileName && (e.type == "reg" || e.type == "chunk"))
  · simp [h]
  · simp [h]

/-- C2 counterexample: in midChunkTOC the chunk entry at logical offset 50
has chunk_size 0 and is followed by a chunk at offset 80, so the claimed
inference next_chunk.chunk_offset - this.chunk_offset would give 30; the
code instead assigns size - chunk_offset = 100 - 50 = 50 inside the
collection loop. -/
theorem c2_mid_chunk_counterexample :
    ChunksForFile midChunkTOC "f" =
      .ok (100, [⟨0, 50, 10, 0⟩, ⟨50, 50, 20, 0⟩, ⟨80, 20, 30, 0⟩]) ∧
    (80 : Int) - 50 ≠ 50 :=
  ⟨rfl, by decide⟩

/-- C2 amended: the next-chunk inference with clamping applies only to chunks
whose size is still 0 after the collection loop (first conjunct, an
index-wise characterization of the post-sort fill-in); during collection a
chunk entry with chunk_size 0 seen while the running size is nonzero gets
size - chunk_offset directly and unclamped (second conjunct), and a reg
entry with chunk_size 0 and nonzero size gets the file's size (third
conjunct). -/
theorem c2_chunk_size_inference :
    (∀ (size : Int) (l : List Chunk) (i : Nat), i < l.length →
      ((fillSizes size l).getD i dChunk).size =
        (if (l.getD i dChunk).size ≠ 0 then (l.getD i dChunk).size
         else
           let nextOffset := if i + 1 < l.length then (l.getD (i + 1) dChunk).offset
                             else size
           let cs := nextOffset - (l.getD i dChunk).offset
           let cs := if cs ≤ 0 then size - (l.getD i dChunk).offset else cs
           if cs < 0 then 0 else cs)) ∧
    (∀ (f : String) (e : TOCEntry) (es : List TOCEntry) (size : Int)
        (found : Bool) (acc : List Chunk),
      e.name = f → e.type = "chunk" → e.chunkSize = 0 → size ≠ 0 →
      collect f (e :: es) size found acc =
        collect f es size true
          (acc ++ [⟨e.chunkOffset, size - e.chunkOffset, e.offset, e.innerOffset⟩])) ∧
    (∀ (f : String) (e : TOCEntry) (es : List TOCEntry) (size : Int)
        (found : Bool) (acc : List Chunk),
      e.name = f → e.type = "reg" → e.chunkSize = 0 → e.size ≠ 0 →
      collect f (e :: es) size found acc =
        collect f es e.size true
          (acc ++ [⟨e.chunkOffset, e.size, e.offset, e.innerOffset⟩])) := by
  refine ⟨?_, ?_, ?_⟩
  · intro size l
    induction l with
    | nil => intro i hi; simp at hi
    | cons c rest ih =>
      intro i hi
      cases i with
      | zero =>
        cases rest with
        | nil => by_cases hc : c.size = 0 <;> simp [fillSizes, hc]
        | cons n rest2 => by_cases hc : c.size = 0 <;> simp [fillSizes, hc]
      | succ j =>
        have hj : j < rest.length := by simpa using hi
        have := ih j hj
        cases rest with
        | nil => simp at hj
        | cons n rest2 =>
          simpa [fillSizes, List.getD] using ih j hj
  · intro f e es size found acc h1 h2 h3 h4
    have hr : e.type ≠ "reg" := by rw [h2]; decide
    simp [collect, h1, h2, h3, h4, hr]
  · intro f e es size found acc h1 h2 h3 h4
    simp [collect, h1, h2, h3, h4]

/-- C2 witness: the amended inference evaluated at concrete inputs; a
still-zero chunk gets the next-offset rule, and the two collection-step
equations fire on concrete entries. -/
theorem c2_chunk_size_inference_witness :
    ((fillSizes 10 [⟨0, 0, 5, 0⟩]).getD 0 dChunk).size = 10 ∧
    collect "f" [⟨"f", "chunk", 0, 20, 50, 0, 0⟩] 100 false [] =
      collect "f" [] 100 true [⟨50, 50, 20, 0⟩] ∧
    collect "f" [⟨"f", "reg", 7, 10, 0, 0, 0⟩] 0 false [] =
      collect "f" [] 7 true [⟨0, 7, 10, 0⟩] := by
  refine ⟨?_, ?_, ?_⟩
  · have h := c2_chunk_size_inference.1 10 [⟨0, 0, 5, 0⟩] 0 (by decide)
    simpa using h
  · have h := c2_chunk_size_inference.2.1 "f" ⟨"f", "chunk", 0, 20, 50, 0, 0⟩ []
      100 false [] rfl rfl rfl (by decide)
    simpa using h
  · have h := c2_chunk_size_inference.2.2 "f" ⟨"f", "reg", 7, 10, 0, 0, 0⟩ []
      0 false [] rfl rfl rfl (by decide)
    simpa using h

/-- C6: for a pattern outside the match-all set the matcher normalizes the
pattern with a leading slash, uses trailing-slash directory mode, and a
path matches exactly per the spec formula over the slash-normalized path;
the match-all patterns accept every path, and pattern bin matches both
bin/echo and a top-level /bin file. -/
theorem c6_path_matcher (P p : String) :
    (P ≠ "" → P ≠ "." → P ≠ "/" →
      pmMatches (newPathMatcher P) p =
        (let Pn := if goHasPrefix P "/" then P else "/" ++ P
         let pn := if goHasPrefix p "/" then p else "/" ++ p
         if goHasSuffix P "/" then goHasPrefix pn Pn
         else pn == Pn || goHasPrefix pn (Pn ++ "/"))) ∧
    pmMatches (newPathMatcher "") p = true ∧
    pmMatches (newPathMatcher ".") p = true ∧
    pmMatches (newPathMatcher "/") p = true ∧
    pmMatches (newPathMatcher "bin") "bin/echo" = true ∧
    pmMatches (newPathMatcher "bin") "/bin" = true := by
  refine ⟨?_, rfl, rfl, rfl, by decide, by decide⟩
  intro h1 h2 h3
  simp [newPathMatcher, pmMatches, h1, h2, h3]

/-- C6 witness: the general clause evaluated at pattern bin and path
bin/echo. -/
theorem c6_path_matcher_witness :
    pmMatches (newPathMatcher "bin") "bin/echo" =
      (let Pn := if goHasPrefix "bin" "/" then "bin" else "/" ++ "bin"
       let pn := if goHasPrefix "bin/echo" "/" then "bin/echo"
                 else "/" ++ "bin/echo"
       if goHasSuffix "bin" "/" then goHasPrefix pn Pn
       else pn == Pn || goHasPrefix pn (Pn ++ "/")) :=
  (c6_path_matcher "bin" "bin/echo").1 (by decide) (by decide) (by decide)

theorem optOr_assoc {α : Type} (a b c : Option α) :
    optOr (optOr a b) c = optOr a (optOr b c) := by
  cases a <;> cases b <;> rfl

theorem optOr_none_right {α : Type} (a : Option α) : optOr a none = a := by
  cases a <;> rfl

theorem lookup_buildLayer (d p : String) :
    ∀ (es : List TOCEntry) (fs : List String) (sizes : List (String × Int))
      (g : List (String × FileInfo)),
      lookupFiles (buildLayer d es fs sizes g).2.2 p =
        optOr (lastRegInEntries d es p) (lookupFiles g p) := by
  intro es
  induction es with
  | nil => intro fs sizes g; simp [buildLayer, lastRegInEntries, optOr]
  | cons e rest ih =>
    intro fs sizes g
    by_cases hr : e.type = "reg"
    · by_cases hn : e.name = p
      · have hlook : lookupFiles ((e.name, ⟨e.name, d, e.size⟩) :: g) p =
            some ⟨p, d, e.size⟩ := by
          simp [lookupFiles, List.find?, hn]
        rw [show buildLayer d (e :: rest) fs sizes g =
            buildLayer d rest (fs ++ [e.name]) ((e.name, e.size) :: sizes)
              ((e.name, ⟨e.name, d, e.size⟩) :: g) from by simp [buildLayer, hr]]
        rw [ih, hlook]
        rw [show lastRegInEntries d (e :: rest) p =
            optOr (lastRegInEntries d rest p) (some ⟨p, d, e.size⟩) from by
          simp [lastRegInEntries, hr, hn]]
        rw [optOr_assoc]
        rfl
      · have hlook : lookupFiles ((e.name, ⟨e.name, d, e.size⟩) :: g) p =
            lookupFiles g p := by
          have : (e.name == p) = false := beq_eq_false_iff_ne.mpr hn
          simp [lookupFiles, List.find?, this]
        rw [show buildLayer d (e :: rest) fs sizes g =
            buildLayer d rest (fs ++ [e.name]) ((e.name, e.size) :: sizes)
              ((e.name, ⟨e.name, d, e.size⟩) :: g) from by simp [buildLayer, hr]]
        rw [ih, hlook]
        rw [show lastRegInEntries d (e :: rest) p =
            optOr (lastRegInEntries d rest p) none from by
          simp [lastRegInEntries, hr, hn]]
        rw [optOr_none_right]
    · rw [show buildLayer d (e :: rest) fs sizes g =
          buildLayer d rest fs sizes g from by simp [buildLayer, hr]]
      rw [ih]
      rw [show lastRegInEntries d (e :: rest) p =
          optOr (lastRegInEntries d rest p) none from by
        simp [lastRegInEntries, hr]]
      rw [optOr_none_right]

theorem lookup_loadFold (tocs : String → Except String JTOC) (p : String) :
    ∀ (blobs : List BlobDescriptor) (idx : ImageIndex),
      lookupFiles ((blobs.foldl (loadStep tocs) idx).files) p =
        optOr (lastOwner blobs tocs p) (lookupFiles idx.files p) := by
  intro blobs
  induction blobs with
  | nil => intro idx; simp [lastOwner, optOr]
  | cons b rest ih =>
    intro idx
    rw [List.foldl_cons, ih]
    cases htoc : tocs b.digest with
    | error e =>
      rw [show (loadStep tocs idx b) = idx from by simp [loadStep, htoc]]
      rw [show lastOwner (b :: rest) tocs p =
          optOr (lastOwner rest tocs p) none from by simp [lastOwner, htoc]]
      rw [optOr_none_right]
    | ok toc =>
      rw [show (loadStep tocs idx b).files =
          (buildLayer b.digest toc.entries [] [] idx.files).2.2 from by
        simp [loadStep, htoc]]
      rw [lookup_buildLayer]
      rw [show lastOwner (b :: rest) tocs p =
          optOr (lastOwner rest tocs p)
            (lastRegInEntries b.digest toc.entries p) from by
        simp [lastOwner, htoc]]
      rw [optOr_assoc]

/-- C7: for an index built by Load, global lookup through FindFile with an
empty blob digest returns exactly the file info written by the last
successfully loaded layer (taking the last reg entry within that layer)
in manifest order, or FILE_NOT_FOUND when no loaded layer has the path. -/
theorem c7_last_layer_wins (blobs : List BlobDescriptor)
    (tocs : String → Except String JTOC) (p : String) (idx : ImageIndex) :
    loadIndex blobs tocs = .ok idx →
    FindFile idx p "" =
      (match lastOwner blobs tocs p with
       | some info => .ok info
       | none => .error "FILE_NOT_FOUND") := by
  intro h
  by_cases hb : blobs.isEmpty
  · simp [loadIndex, hb] at h
  · have hidx : idx = blobs.foldl (loadStep tocs) ⟨[], []⟩ := by
      simp [loadIndex, hb] at h
      exact h.symm
    rw [hidx]
    unfold FindFile
    rw [if_pos rfl]
    rw [lookup_loadFold]
    rw [show lookupFiles (ImageIndex.files ⟨[], []⟩) p = none from rfl]
    rw [optOr_none_right]
    cases lastOwner blobs tocs p <;> rfl

/-- C7 witness: the two-layer scenario; the second layer owns the path. -/
theorem c7_last_layer_wins_witness :
    FindFile c7idx "etc/hostname" "" =
      .ok ⟨"etc/hostname", "sha256:d2", 2⟩ := by
  have h := c7_last_layer_wins c7blobs c7tocs "etc/hostname" c7idx rfl
  simpa using h

/-- C10 counterexample: a storage with one blob whose TOC load fails makes
Load return an index with zero layers instead of an error, refuting the
clause that an index with zero layers is never produced. -/
theorem c10_zero_layer_index_counterexample :
    loadIndex [⟨"sha256:dX", 5⟩] (fun _ => .error "toc failed") =
      .ok ⟨[], []⟩ := rfl

/-- C10 amended: Load fails when ListBlobs yields an empty list, but a
zero-layer index is produced when every blob's TOC load fails (the layers
are skipped, shown by the counterexample). -/
theorem c10_empty_blob_list_errors (tocs : String → Except String JTOC) :
    loadIndex [] tocs = .error "no blobs found in storage" := rfl

theorem processJob_retries (mR : Nat) (s : DownloadStats) (j : DLJob) :
    (processJob mR s j).retries = s.retries + jobRetries mR j := by
  unfold processJob jobRetries
  cases h : attemptsFrom j.succeeds 0 (mR + 1) 0 with
  | mk r downloaded => cases downloaded <;> simp [h]

theorem processJob_failed (mR : Nat) (s : DownloadStats) (j : DLJob) :
    (processJob mR s j).failedFiles =
      s.failedFiles + (if jobOk mR j then 0 else 1) := by
  unfold processJob jobOk
  cases h : attemptsFrom j.succeeds 0 (mR + 1) 0 with
  | mk r downloaded => cases downloaded <;> simp [h]

theorem foldl_processJob_retries (mR : Nat) :
    ∀ (js : List DLJob) (s : DownloadStats),
      (js.foldl (processJob mR) s).retries =
        s.retries + (js.map (jobRetries mR)).sum := by
  intro js
  induction js with
  | nil => intro s; simp
  | cons j rest ih =>
    intro s
    rw [List.foldl_cons, ih, processJob_retries]
    simp [Nat.add_assoc]

theorem foldl_processJob_failed (mR : Nat) :
    ∀ (js : List DLJob) (s : DownloadStats),
      (js.foldl (processJob mR) s).failedFiles =
        s.failedFiles + (js.map (fun j => if jobOk mR j then 0 else 1)).sum := by
  intro js
  induction js with
  | nil => intro s; simp
  | cons j rest ih =>
    intro s
    rw [List.foldl_cons, ih, processJob_failed]
    simp [Nat.add_assoc]

theorem startDownload_retries (jobs : List DLJob) (opts : Option DownloadOptions) :
    (StartDownload jobs opts).retries =
      (jobs.map (jobRetries (effMaxRetries opts))).sum := by
  unfold StartDownload
  cases jobs with
  | nil => rfl
  | cons j rest =>
    rw [if_neg (by simp)]
    rw [foldl_processJob_retries]
    simp

theorem startDownload_failed (jobs : List DLJob) (opts : Option DownloadOptions) :
    (StartDownload jobs opts).failedFiles =
      (jobs.map (fun j => if jobOk (effMaxRetries opts) j then 0 else 1)).sum := by
  unfold StartDownload
  cases jobs with
  | nil => rfl
  | cons j rest =>
    rw [if_neg (by simp)]
    rw [foldl_processJob_failed]
    simp

theorem attemptsFrom_step (succ : Nat → Bool) (s f r : Nat) :
    attemptsFrom succ s (f + 1) r =
      (if succ s then ((if 0 < s then r + 1 else r), true)
       else attemptsFrom succ (s + 1) f (if 0 < s then r + 1 else r)) := rfl

theorem attempts_fail_all (succ : Nat → Bool) :
    ∀ (f s r : Nat), 1 ≤ s → (∀ i, s ≤ i → i < s + f → succ i = false) →
      attemptsFrom succ s f r = (r + f, false) := by
  intro f
  induction f with
  | zero => intro s r hs hfail; simp [attemptsFrom]
  | succ f ih =>
    intro s r hs hfail
    have hstart : succ s = false := hfail s le_rfl (by omega)
    have hrec := ih (s + 1) (r + 1) (by omega)
      (fun i h1 h2 => hfail i (by omega) (by omega))
    rw [attemptsFrom_step, if_pos (show 0 < s by omega), hstart]
    rw [if_neg (by simp), hrec]
    simp only [Prod.mk.injEq]
    exact ⟨by omega, trivial⟩

theorem attempts_succ_at (succ : Nat → Bool) :
    ∀ (f s r a : Nat), 1 ≤ s → s ≤ a → a < s + f →
      (∀ i, s ≤ i → i < a → succ i = false) → succ a = true →
      attemptsFrom succ s f r = (r + (a - s + 1), true) := by
  intro f
  induction f with
  | zero => intro s r a hs hsa ha hfail hsucc; omega
  | succ f ih =>
    intro s r a hs hsa ha hfail hsucc
    by_cases heq : a = s
    · subst heq
      rw [attemptsFrom_step, if_pos (show 0 < a by omega), if_pos hsucc]
      simp only [Prod.mk.injEq]
      exact ⟨by omega, trivial⟩
    · have hstart : succ s = false := hfail s le_rfl (by omega)
      have hrec := ih (s + 1) (r + 1) a (by omega) (by omega) (by omega)
        (fun i h1 h2 => hfail i (by omega) h2) hsucc
      rw [attemptsFrom_step, if_pos (show 0 < s by omega), hstart]
      rw [if_neg (by simp), hrec]
      simp only [Prod.mk.injEq]
      exact ⟨by omega, trivial⟩

theorem attemptsFrom_zero (succ : Nat → Bool) (f r : Nat) :
    attemptsFrom succ 0 (f + 1) r =
      (if succ 0 then (r, true) else attemptsFrom succ 1 f r) := by
  rw [attemptsFrom_step]
  simp

theorem jobRetries_first_success (mR : Nat) (j : DLJob) (k : Nat)
    (hk1 : 1 ≤ k) (hk2 : k ≤ mR + 1)
    (hfail : ∀ i, i < k - 1 → j.succeeds i = false)
    (hsucc : j.succeeds (k - 1) = true) :
    jobRetries mR j = k - 1 ∧ jobOk mR j = true := by
  unfold jobRetries jobOk
  rw [attemptsFrom_zero]
  by_cases hk : k = 1
  · subst hk
    simp only [Nat.sub_self] at hsucc
    rw [if_pos hsucc]
    exact ⟨rfl, rfl⟩
  · have h0 : j.succeeds 0 = false := hfail 0 (by omega)
    have hrec := attempts_succ_at j.succeeds mR 1 0 (k - 1) le_rfl (by omega)
      (by omega) (fun i h1 h2 => hfail i h2) hsucc
    rw [h0]
    rw [if_neg (by simp), hrec]
    constructor
    · show 0 + (k - 1 - 1 + 1) = k - 1
      omega
    · rfl

theorem jobRetries_all_fail (mR : Nat) (j : DLJob)
    (hfail : ∀ i, i ≤ mR → j.succeeds i = false) :
    jobRetries mR j = mR ∧ jobOk mR j = false := by
  unfold jobRetries jobOk
  rw [attemptsFrom_zero]
  have h0 : j.succeeds 0 = false := hfail 0 (by omega)
  have hrec := attempts_fail_all j.succeeds mR 1 0 le_rfl
    (fun i h1 h2 => hfail i (by omega))
  rw [h0]
  rw [if_neg (by simp), hrec]
  exact ⟨by omega, rfl⟩

/-- C5: with a positive MaxRetries, appending a job that first succeeds on
attempt k (1-indexed, within the attempt budget) adds exactly k-1 to
stats.Retries and nothing to stats.FailedFiles, and appending a job whose
MaxRetries+1 attempts all fail adds exactly MaxRetries to stats.Retries
and exactly 1 to stats.FailedFiles. -/
theorem c5_retry_accounting (jobs : List DLJob) (j : DLJob)
    (o : DownloadOptions) (hmr : 0 < o.maxRetries) :
    (∀ k : Nat, 1 ≤ k → k ≤ o.maxRetries.toNat + 1 →
      (∀ i, i < k - 1 → j.succeeds i = false) → j.succeeds (k - 1) = true →
      (StartDownload (jobs ++ [j]) (some o)).retries =
        (StartDownload jobs (some o)).retries + (k - 1) ∧
      (StartDownload (jobs ++ [j]) (some o)).failedFiles =
        (StartDownload jobs (some o)).failedFiles) ∧
    ((∀ i : Nat, i ≤ o.maxRetries.toNat → j.succeeds i = false) →
      (StartDownload (jobs ++ [j]) (some o)).retries =
        (StartDownload jobs (some o)).retries + o.maxRetries.toNat ∧
      (StartDownload (jobs ++ [j]) (some o)).failedFiles =
        (StartDownload jobs (some o)).failedFiles + 1) := by
  have heff : effMaxRetries (some o) = o.maxRetries.toNat := by
    show (if o.maxRetries ≤ 0 then 3 else o.maxRetries.toNat) = o.maxRetries.toNat
    rw [if_neg (by omega)]
  constructor
  · intro k hk1 hk2 hfail hsucc
    have hj := jobRetries_first_success o.maxRetries.toNat j k hk1 hk2 hfail hsucc
    constructor
    · rw [startDownload_retries, startDownload_retries, heff, List.map_append,
        List.sum_append]
      simp [hj.1]
    · rw [startDownload_failed, startDownload_failed, heff, List.map_append,
        List.sum_append]
      simp [hj.2]
  · intro hfail
    have hj := jobRetries_all_fail o.maxRetries.toNat j hfail
    constructor
    · rw [startDownload_retries, startDownload_retries, heff, List.map_append,
        List.sum_append]
      simp [hj.1]
    · rw [startDownload_failed, startDownload_failed, heff, List.map_append,
        List.sum_append]
      simp [hj.2]

/-- C5 witness: with MaxRetries 3, a job that fails once then succeeds on
attempt 2 contributes one retry and no failure, and a job that always
fails contributes three retries and one failure. -/
theorem c5_retry_accounting_witness :
    ((StartDownload [⟨5, fun i => i == 1⟩] (some ⟨3, 4⟩)).retries =
        (StartDownload [] (some ⟨3, 4⟩)).retries + 1 ∧
      (StartDownload [⟨5, fun i => i == 1⟩] (some ⟨3, 4⟩)).failedFiles =
        (StartDownload [] (some ⟨3, 4⟩)).failedFiles) ∧
    ((StartDownload [⟨7, fun _ => false⟩] (some ⟨3, 4⟩)).retries =
        (StartDownload [] (some ⟨3, 4⟩)).retries + 3 ∧
      (StartDownload [⟨7, fun _ => false⟩] (some ⟨3, 4⟩)).failedFiles =
        (StartDownload [] (some ⟨3, 4⟩)).failedFiles + 1) := by
  constructor
  · have h := (c5_retry_accounting [] ⟨5, fun i => i == 1⟩ ⟨3, 4⟩ (by decide)).1
      2 (by decide) (by decide) (fun i hi => by interval_cases i; rfl) rfl
    simpa using h
  · have h := (c5_retry_accounting [] ⟨7, fun _ => false⟩ ⟨3, 4⟩ (by decide)).2
      (fun i hi => rfl)
    simpa using h

/-- C3 failing input: a session with username u and password p configured
and no cached token, against a registry that accepts the request. The one
and only manifest request already carries Basic u:p credentials, because
applyAuth falls through to SetBasicAuth; the first request is not sent
anonymously as claimed. -/
theorem c3_first_request_carries_basic_auth :
    GetManifest c3client c3server noToken
        "https" "registry.example.com" "library/app" "latest" =
      ([⟨manifestURL "https" "registry.example.com" "library/app" "latest",
         some (.basic "u" "p")⟩], .ok plainManifest) ∧
    c3client.authToken = "" :=
  ⟨rfl, rfl⟩

/-- C4 failing input: a registry that immediately answers the tag request
with an OCI index (non-empty manifests). GetManifest returns after the
single anonymous request with the index itself and never re-fetches by the
first descriptor's digest; on the authenticated path (second conjunct) the
same client does follow the descriptor and returns the platform manifest. -/
theorem c4_anonymous_success_skips_index :
    (GetManifest c4client c4serverAnon tokenT
        "https" "registry.example.com" "library/app" "latest" =
      ([⟨manifestURL "https" "registry.example.com" "library/app" "latest",
         none⟩], .ok indexManifest) ∧
      indexManifest.manifests ≠ []) ∧
    GetManifest c4client c4serverAuth tokenT
        "https" "registry.example.com" "library/app" "latest" =
      ([⟨manifestURL "https" "registry.example.com" "library/app" "latest", none⟩,
        ⟨manifestURL "https" "registry.example.com" "library/app" "latest",
         some (.bearer "T")⟩,
        ⟨manifestURL "https" "registry.example.com" "library/app" "sha256:plat1",
         some (.bearer "T")⟩], .ok platManifest) :=
  ⟨⟨rfl, by decide⟩, rfl⟩

theorem parseFooterBytes_size (p : List Nat) (t fs : Int) :
    ParseFooterBytes p = .ok (t, fs) → fs = 51 ∨ fs = 47 := by
  unfold ParseFooterBytes
  cases h1 : parseFooter p false with
  | ok x =>
    intro h
    simp at h
    left
    exact h.2.symm
  | error e1 =>
    cases h2 : parseFooter (p.drop (p.length - 47)) true with
    | ok x =>
      intro h
      simp at h
      right
      exact h.2.symm
    | error e2 =>
      intro h
      simp at h

theorem readBlob_footer (blob : List Nat) :
    readBlobClamped blob
      ((blob.length : Int) -
        (if (blob.length : Int) < 51 then (blob.length : Int) else 51))
      (if (blob.length : Int) < 51 then (blob.length : Int) else 51) =
    .ok (footerSlice blob) := by
  unfold readBlobClamped footerSlice
  by_cases h : (blob.length : Int) < 51
  · simp only [if_pos h]
    rw [if_neg (by omega)]
    rw [if_neg (show ¬(0 < (blob.length : Int) ∧
        (blob.length : Int) - (blob.length : Int) + (blob.length : Int) <
          (blob.length : Int)) by omega)]
    have h1 : ((blob.length : Int)).toNat = blob.length := by omega
    have h2 : ((blob.length : Int) - (blob.length : Int)).toNat = 0 := by omega
    have h3 : blob.length - 51 = 0 := by omega
    rw [h1, h2, h3, List.take_length]
  · simp only [if_neg h]
    rw [if_neg (by omega)]
    rw [if_neg (show ¬(0 < (51 : Int) ∧
        (blob.length : Int) - 51 + 51 < (blob.length : Int)) by omega)]
    have h1 : ((blob.length : Int)).toNat = blob.length := by omega
    have h2 : ((blob.length : Int) - 51).toNat = blob.length - 51 := by omega
    rw [h1, h2, List.take_length]

theorem readBlob_toEnd (blob : List Nat) (t L : Int) (h2 : 0 ≤ t)
    (h3 : t ≤ (blob.length : Int)) (h4 : ¬(0 < L ∧ t + L < (blob.length : Int))) :
    readBlobClamped blob t L = .ok (blob.drop t.toNat) := by
  unfold readBlobClamped
  rw [if_neg (by omega)]
  rw [if_neg h4]
  have h1 : ((blob.length : Int)).toNat = blob.length := by omega
  show Except.ok (List.drop t.toNat (List.take ((blob.length : Int)).toNat blob)) =
    Except.ok (List.drop t.toNat blob)
  rw [h1, List.take_length]

/-- C8 amended: the footer read asks for the last min(51, blob_size) bytes
as claimed, but the TOC read is issued with length (blob_size - toc_start)
plus footer_size, a range that overruns the blob end by footer_size; the
storage clamps it, so the bytes handed to the decoder are still exactly
the range from toc_start to blob_size. -/
theorem c8_toc_read_overruns_end (blob : List Nat)
    (decode : List Nat → Except String JTOC) (t fs : Int)
    (h1 : ParseFooterBytes (footerSlice blob) = .ok (t, fs))
    (h2 : 0 ≤ t) (h3 : t < (blob.length : Int)) :
    loadTOC blob decode =
      ([((blob.length : Int) -
          (if (blob.length : Int) < 51 then (blob.length : Int) else 51),
         if (blob.length : Int) < 51 then (blob.length : Int) else 51),
        (t, ((blob.length : Int) - t) + fs)],
       tocResult decode (blob.drop t.toNat)) := by
  have hfs : fs = 51 ∨ fs = 47 := parseFooterBytes_size _ _ _ h1
  have hfs0 : 0 < fs := by rcases hfs with h | h <;> omega
  have hread := readBlob_toEnd blob t (((blob.length : Int) - t) + fs) h2
    (by omega) (by omega)
  unfold loadTOC
  simp only [readBlob_footer, h1, hread]
  rw [if_neg (show ¬((blob.length : Int) - t ≤ 0) by omega)]

/-- C8 counterexample: on a 300-byte blob whose footer encodes toc_start
256, the second ReadBlob request is (256, 95): its length is not
300 - 256 = 44 and its end 351 lies beyond the blob end, refuting the
claim that exactly the range from toc_start to blob_size is read. -/
theorem c8_extra_bytes_requested_counterexample :
    (loadTOC blob300 dummyDecode).1 = [(249, 51), (256, 95)] ∧
    ¬((95 : Int) = 300 - 256) ∧ ((256 : Int) + 95 > 300) :=
  ⟨rfl, by decide, by decide⟩

/-- C8 witness: the amended statement evaluated on the 300-byte blob. -/
theorem c8_toc_read_overruns_end_witness :
    loadTOC blob300 dummyDecode =
      ([(249, 51), (256, 95)], .error "TOC download failed") := by
  have h := c8_toc_read_overruns_end blob300 dummyDecode 256 51 rfl
    (by decide) (by decide)
  exact h.trans rfl

/-- C9: a 47-byte blob that is exactly a valid legacy footer (its own
legacy parse yields TOC offset 64) is admitted by OpenFooter's size guard,
yet OpenFooter fails with the footer read error because it reads at
offset size - 51 = -4, instead of decoding the offset as the claim (and
the spec's 47-bytes-suffice statement) requires. -/
theorem c9_legacy_blob_read_failure :
    parseFooter legacyBlob47 true = .ok 64 ∧
    legacyBlob47.length = 47 ∧
    OpenFooter legacyBlob47 = .error "failed to read footer" :=
  ⟨rfl, rfl, rfl⟩

end Stargz
